import Mathlib

/-!
Verification of the Tavily search-and-summarize streaming protocol of this
repository: the server-side tool (src/lib/ai/tools/tavilySearch.ts, function
`execute`) and the client-side event fold (src/components/tavily-search-results.tsx,
component `TavilySearchResults`).

The TypeScript is shallowly embedded: the tool's `execute` becomes a pure
function from its environment (API key, generated call id, per-query fetch
outcomes, the generator's fragment stream) to the ordered list of events it
writes on the data stream plus its outcome (raised error or returned value);
the client's `useEffect` switch becomes a fold `applyDelta` over the event
list, and the `uniqueSources` memo becomes a first-seen url filter.
-/

/-- One external search result, interface `TavilySearchResult` of
tavilySearch.ts (title, url, content, score).  The numeric relevance score is
carried opaquely — the code never computes with it — so it is embedded as an
integer. -/
structure TavilySearchResult where
  title : String
  url : String
  content : String
  score : Int
deriving DecidableEq

/-- Interface `TavilySearchResponse` of tavilySearch.ts: one per-query
response (query echo, response time, result records). -/
structure TavilySearchResponse where
  query : String
  response_time : Nat
  results : List TavilySearchResult
deriving DecidableEq

/-- `serializeSearchResult` of tavilySearch.ts: rebuilds the plain object
{title, url, content, score} from a result record. -/
def serializeSearchResult (result : TavilySearchResult) : TavilySearchResult :=
  { title := result.title
    url := result.url
    content := result.content
    score := result.score }

/-- Discriminator of the wire events, the `type` field of `DataStreamDelta`:
'tavily-search-status' | 'tavily-search-sources' | 'tavily-summary-delta'. -/
inductive EventType where
  | searchStatus
  | searchSources
  | summaryDelta
deriving DecidableEq

/-- The `content` field of a wire event: always the owning toolCallId, plus
optional status / sources / delta / summary / error fields (section 6 of the
spec gives this exact shape). -/
structure EventContent where
  toolCallId : String
  status? : Option String
  sources? : Option (List TavilySearchResult)
  delta? : Option String
  summary? : Option String
  error? : Option String
deriving DecidableEq

/-- One wire event (`DataStreamDelta` in data-stream-handler types). -/
structure DataStreamDelta where
  type : EventType
  content : EventContent
deriving DecidableEq

/-- A 'tavily-search-status' event as written by tavilySearch.ts: status is
always present, sources / summary / error as supplied. -/
def statusEvent (toolCallId status : String)
    (sources? : Option (List TavilySearchResult))
    (summary? : Option String) (error? : Option String) : DataStreamDelta :=
  { type := EventType.searchStatus
    content :=
      { toolCallId := toolCallId
        status? := some status
        sources? := sources?
        delta? := none
        summary? := summary?
        error? := error? } }

/-- A 'tavily-search-sources' event: carries only the batch of sources. -/
def sourcesEvent (toolCallId : String)
    (sources : List TavilySearchResult) : DataStreamDelta :=
  { type := EventType.searchSources
    content :=
      { toolCallId := toolCallId
        status? := none
        sources? := some sources
        delta? := none
        summary? := none
        error? := none } }

/-- A 'tavily-summary-delta' event: carries only one summary fragment. -/
def summaryDeltaEvent (toolCallId delta : String) : DataStreamDelta :=
  { type := EventType.summaryDelta
    content :=
      { toolCallId := toolCallId
        status? := none
        sources? := none
        delta? := some delta
        summary? := none
        error? := none } }

/-- The initial status event of `execute` (line 63 of tavilySearch.ts):
status 'Searching...' with an empty sources list. -/
def searchingEvent (toolCallId : String) : DataStreamDelta :=
  statusEvent toolCallId "Searching..." (some []) none none

/-- The event written by the catch block of `execute` (line 217): status
'Error occurred during search.' and the error message — no sources field and
no summary field. -/
def errorStatusEvent (toolCallId message : String) : DataStreamDelta :=
  { type := EventType.searchStatus
    content :=
      { toolCallId := toolCallId
        status? := some "Error occurred during search."
        sources? := none
        delta? := none
        summary? := none
        error? := some message } }

/-- Outcome of one per-query fetch against the search API, as seen by the
try/catch inside `queries.map` (lines 74-113): the fetch resolved with an ok
response whose body parsed, resolved with a non-success HTTP status, or threw
(network failure or malformed body, both reach the catch). -/
inductive FetchOutcome where
  | ok (response : TavilySearchResponse)
  | httpError (statusText : String)
  | fetchError (message : String)
deriving DecidableEq

/-- Whether a fetch outcome is one of the failure shapes. -/
def FetchOutcome.isFailure : FetchOutcome → Bool
  | FetchOutcome.ok _ => false
  | FetchOutcome.httpError _ => true
  | FetchOutcome.fetchError _ => true

/-- The per-query Result Source Client: body of the async closure in
`queries.map` (lines 74-113 of tavilySearch.ts).  A non-ok HTTP status or a
thrown error is absorbed into `{query, response_time: 0, results: []}`; an ok
parsed response is passed through. -/
def searchQuery (query : String) (outcome : FetchOutcome) : TavilySearchResponse :=
  match outcome with
  | FetchOutcome.ok response => response
  | FetchOutcome.httpError _ =>
      { query := query, response_time := 0, results := [] }
  | FetchOutcome.fetchError _ =>
      { query := query, response_time := 0, results := [] }

/-- Semantics of `await Promise.all(searchPromises)` (line 115): the resolved
array holds each task's value at the task's submission index, regardless of
the order in which the tasks settled.  `completionTimes` (when each fetch
settled) is taken as a parameter precisely to record that the resolved array
does not depend on it. -/
def promiseAll (tasks : List TavilySearchResponse)
    (completionTimes : List Nat) : List TavilySearchResponse :=
  let _ := completionTimes
  tasks

/-- The settled per-query responses, in query-submission order. -/
def searchResponsesOf (queries : List String)
    (outcomes : List FetchOutcome) : List TavilySearchResponse :=
  (queries.zip outcomes).map (fun p => searchQuery p.1 p.2)

/-- The accumulation loop over `searchResponses` (lines 118-137): for every
response with a non-empty results array, `allSources` receives the first 5
records (`relevantResults`); responses with no results contribute nothing. -/
def allSourcesOf (responses : List TavilySearchResponse) : List TavilySearchResult :=
  ((responses.filter (fun r => decide (0 < r.results.length))).map
    (fun r => r.results.take 5)).flatten

/-- The 'tavily-search-sources' events written by the same loop: one event per
response with a non-empty results array, carrying exactly that response's
capped, serialized slice, in the order the loop visits the responses. -/
def batchEventsOf (toolCallId : String)
    (responses : List TavilySearchResponse) : List DataStreamDelta :=
  (responses.filter (fun r => decide (0 < r.results.length))).map
    (fun r => sourcesEvent toolCallId ((r.results.take 5).map serializeSearchResult))

/-- Behaviour of the summarization `streamText` call (lines 179-193): the
fragments its text stream yields, and — when the stream or the call throws —
the error message that escapes to the outer catch after those fragments. -/
structure GenOutcome where
  deltas : List String
  error? : Option String
deriving DecidableEq

/-- Shape of the final sources in the success return value (lines 209-213):
url, title, and content truncated to 150 characters plus an ellipsis. -/
structure ReturnSource where
  url : String
  title : String
  content : String
deriving DecidableEq

/-- The tool's return value: toolCallId, summary, sources, and the error
field that only the catch block's return carries. -/
structure ExecReturn where
  toolCallId : String
  summary : String
  sources : List ReturnSource
  error? : Option String
deriving DecidableEq

/-- How `execute` ends: by throwing (only the missing-credential check
throws) or by returning a result object. -/
inductive ExecOutcome where
  | raised (message : String)
  | returned (ret : ExecReturn)
deriving DecidableEq

/-- JavaScript truthiness of an optional string environment value:
`undefined` and the empty string are both falsy. -/
def strTruthy : Option String → Bool
  | none => false
  | some s => s != ""

/-- The tool's `execute` (lines 54-232 of tavilySearch.ts), as a function
from its environment to the ordered event list it writes and its outcome.
The environment stands for: the TAVILY_API_KEY variable, the generated UUID,
each query's fetch outcome (paired positionally with `queries`), the times at
which the fetches settled, and the summarization stream's behaviour. -/
def execute (apiKey : Option String) (toolCallId : String)
    (queries : List String) (outcomes : List FetchOutcome)
    (completionTimes : List Nat) (gen : GenOutcome) :
    List DataStreamDelta × ExecOutcome :=
  if strTruthy apiKey then
    let searchResponses := promiseAll (searchResponsesOf queries outcomes) completionTimes
    let allSources := allSourcesOf searchResponses
    let batchEvents := batchEventsOf toolCallId searchResponses
    if allSources.length = 0 then
      ([searchingEvent toolCallId] ++ batchEvents
        ++ [statusEvent toolCallId "No results found." (some []) none none],
       ExecOutcome.returned
        { toolCallId := toolCallId
          summary := "No relevant search results found."
          sources := []
          error? := none })
    else
      let serializedSources := allSources.map serializeSearchResult
      let deltaEvents := gen.deltas.map (fun d => summaryDeltaEvent toolCallId d)
      let finalSummary := gen.deltas.foldl (fun acc d => acc ++ d) ""
      match gen.error? with
      | some msg =>
          ([searchingEvent toolCallId] ++ batchEvents
            ++ [statusEvent toolCallId "Summarizing..." (some serializedSources) none none]
            ++ deltaEvents ++ [errorStatusEvent toolCallId msg],
           ExecOutcome.returned
            { toolCallId := toolCallId
              summary := "An error occurred during the search."
              sources := []
              error? := some msg })
      | none =>
          ([searchingEvent toolCallId] ++ batchEvents
            ++ [statusEvent toolCallId "Summarizing..." (some serializedSources) none none]
            ++ deltaEvents
            ++ [statusEvent toolCallId "Complete" (some serializedSources) (some finalSummary) none],
           ExecOutcome.returned
            { toolCallId := toolCallId
              summary := finalSummary
              sources := allSources.map
                (fun s => { url := s.url, title := s.title, content := s.content.take 150 ++ "..." })
              error? := none })
  else
    ([], ExecOutcome.raised "Tavily API key not configured.")

/-- The client reducer's state (`TavilySearchResults` component): status,
accumulated sources, accumulated summary, optional error. -/
structure ReducerState where
  status : String
  sources : List TavilySearchResult
  summary : String
  error : Option String
deriving DecidableEq

/-- Default component state when no initialResult is supplied (lines 33-38 of
tavily-search-results.tsx). -/
def initialState : ReducerState :=
  { status := "Searching...", sources := [], summary := "", error := none }

/-- Whether some record of `s` already has url `u`
(`s.some(es => es.url === ns.url)`). -/
def hasUrl (s : List TavilySearchResult) (u : String) : Bool :=
  s.any (fun e => e.url == u)

/-- The append-unique update used in both sources-merging branches of the
switch (lines 63-69 and 74-80): keep the existing list, append the incoming
records whose url no existing record has.  The incoming batch is filtered
against the existing list only, so two same-url records inside one batch are
both appended. -/
def mergeSources (s ns : List TavilySearchResult) : List TavilySearchResult :=
  s ++ ns.filter (fun n => !(hasUrl s n.url))

/-- `if (content.status) setStatus(...)` / `if (content.summary)
setSummary(...)`: overwrite when the field is present and truthy. -/
def setIfTruthy (cur : String) (o : Option String) : String :=
  match o with
  | some v => if v != "" then v else cur
  | none => cur

/-- `if (content.error) setError(content.error)`. -/
def setErrIfTruthy (cur : Option String) (o : Option String) : Option String :=
  match o with
  | some v => if v != "" then some v else cur
  | none => cur

/-- `if (content.sources) setSources(...)`: an array is truthy whenever
present (an empty array merges as a no-op). -/
def mergeIfPresent (cur : List TavilySearchResult)
    (o : Option (List TavilySearchResult)) : List TavilySearchResult :=
  match o with
  | some ns => mergeSources cur ns
  | none => cur

/-- `if (content.delta) setSummary(prev => prev + content.delta)`. -/
def appendIfTruthy (cur : String) (o : Option String) : String :=
  match o with
  | some f => if f != "" then cur ++ f else cur
  | none => cur

/-- One iteration of the `relevantDeltas.forEach` switch (lines 56-87 of
tavily-search-results.tsx): fold one event into the component state. -/
def applyDelta (st : ReducerState) (d : DataStreamDelta) : ReducerState :=
  match d.type with
  | EventType.searchStatus =>
      { status := setIfTruthy st.status d.content.status?
        sources := mergeIfPresent st.sources d.content.sources?
        summary := setIfTruthy st.summary d.content.summary?
        error := setErrIfTruthy st.error d.content.error? }
  | EventType.searchSources =>
      { st with sources := mergeIfPresent st.sources d.content.sources? }
  | EventType.summaryDelta =>
      { st with summary := appendIfTruthy st.summary d.content.delta? }

/-- Folding a whole event list, in arrival order. -/
def foldEvents (st : ReducerState) (events : List DataStreamDelta) : ReducerState :=
  events.foldl applyDelta st

/-- The `dataStream.filter` of the useEffect (lines 46-54): keep the events
whose content names this tool call.  (In the embedding every event content
carries a toolCallId, so the typeof/object guards always hold.) -/
def relevantDeltasFor (toolCallId : String)
    (stream : List DataStreamDelta) : List DataStreamDelta :=
  stream.filter (fun d => d.content.toolCallId == toolCallId)

/-- The `uniqueSources` memo (lines 90-99): keep each record whose url has
not been seen yet, tracking seen urls. -/
def uniqueSourcesAux (seen : List String) :
    List TavilySearchResult → List TavilySearchResult
  | [] => []
  | x :: xs =>
      if x.url ∈ seen then uniqueSourcesAux seen xs
      else x :: uniqueSourcesAux (x.url :: seen) xs

/-- The rendered, first-seen-deduplicated source list. -/
def uniqueSources (sources : List TavilySearchResult) : List TavilySearchResult :=
  uniqueSourcesAux [] sources

/-- The source records one event contributes to the merge: the carried list
for the two source-merging event kinds, nothing for a summary fragment. -/
def eventSources (d : DataStreamDelta) : List TavilySearchResult :=
  match d.type with
  | EventType.searchStatus => d.content.sources?.getD []
  | EventType.searchSources => d.content.sources?.getD []
  | EventType.summaryDelta => []

/-- The summary fragments carried by the 'tavily-summary-delta' events of an
event list, in order. -/
def deltaFragments (events : List DataStreamDelta) : List String :=
  events.filterMap (fun e =>
    match e.type with
    | EventType.summaryDelta => e.content.delta?
    | _ => none)

/-- Recognizer for 'tavily-search-sources' events. -/
def isSourcesEvent (e : DataStreamDelta) : Bool :=
  match e.type with
  | EventType.searchSources => true
  | _ => false

/-- Urls already seen after the unique-filter has scanned a list. -/
def seenAfter (seen : List String) : List TavilySearchResult → List String
  | [] => seen
  | x :: xs =>
      if x.url ∈ seen then seenAfter seen xs
      else seenAfter (x.url :: seen) xs

/-- Repeated append-unique merging, one batch at a time. -/
def mergeAll (s : List TavilySearchResult)
    (batches : List (List TavilySearchResult)) : List TavilySearchResult :=
  batches.foldl mergeSources s

/-- Insert an (index, settle-time) pair into a list sorted by settle time. -/
def insertByTime (p : Nat × Nat) : List (Nat × Nat) → List (Nat × Nat)
  | [] => [p]
  | q :: t => if p.2 < q.2 then p :: q :: t else q :: insertByTime p t

/-- The completion order of the fetches: the submission indices sorted by the
time at which each fetch settled.  (Used to state what completion-order
emission would be; the code itself never observes it.) -/
def completionOrder (completionTimes : List Nat) : List Nat :=
  (((List.range completionTimes.length).zip completionTimes).foldr insertByTime []).map
    (fun p => p.1)

/-- Reorder a list by a list of indices (drop out-of-range indices). -/
def permuteByOrder {α : Type} (l : List α) (ord : List Nat) : List α :=
  ord.filterMap (fun i => l[i]?)

/-- Demo record one: url "u", title "t1". -/
def r1demo : TavilySearchResult := ⟨"t1", "u", "c1", 1⟩

/-- Demo record two: the same url "u" with a different title. -/
def r2demo : TavilySearchResult := ⟨"t2", "u", "c2", 2⟩

/-- Events of a run in which two queries both return a record with url "u". -/
def c1Stream : List DataStreamDelta :=
  (execute (some "key") "call1" ["a", "b"]
    [FetchOutcome.ok ⟨"a", 1, [r1demo]⟩, FetchOutcome.ok ⟨"b", 1, [r2demo]⟩]
    [0, 0] ⟨["s"], none⟩).1

/-- Demo record with url "ua", returned by the first query. -/
def raDemo : TavilySearchResult := ⟨"ta", "ua", "ca", 1⟩

/-- Demo record with url "ub", returned by the second query. -/
def rbDemo : TavilySearchResult := ⟨"tb", "ub", "cb", 1⟩

/-- Events of a run in which the second query's fetch settles first (settle
times [5, 1]). -/
def c5Stream : List DataStreamDelta :=
  (execute (some "key") "call5" ["a", "b"]
    [FetchOutcome.ok ⟨"a", 1, [raDemo]⟩, FetchOutcome.ok ⟨"b", 1, [rbDemo]⟩]
    [5, 1] ⟨["s"], none⟩).1

/-- A demo event stream for one call "c2" interleaved with another call's
event: overlapping urls across batches, inside one batch, and on a status
event. -/
def c2Stream : List DataStreamDelta :=
  [sourcesEvent "c2" [⟨"A", "u", "ca", 1⟩],
   sourcesEvent "other" [⟨"X", "u", "cx", 9⟩],
   sourcesEvent "c2" [⟨"B", "u", "cb", 2⟩, ⟨"C", "v", "cc", 3⟩],
   statusEvent "c2" "Complete" (some [⟨"D", "v", "cd", 4⟩]) (some "s") none]


/-! ### Small list lemmas used repeatedly below -/

theorem filter_all_false {α : Type} (p : α → Bool) :
    ∀ l : List α, (∀ x ∈ l, p x = false) → l.filter p = [] := by
  intro l
  induction l with
  | nil => intro _; rfl
  | cons x xs ih =>
      intro h
      have hx := h x (List.mem_cons_self x xs)
      simp [List.filter_cons, hx, ih (fun y hy => h y (List.mem_cons_of_mem x hy))]

theorem filter_map_true {α β : Type} (g : α → β) (p : β → Bool)
    (h : ∀ x, p (g x) = true) : ∀ l : List α, (l.map g).filter p = l.map g := by
  intro l
  induction l with
  | nil => rfl
  | cons x xs ih => simp [List.map_cons, List.filter_cons, h x, ih]

theorem filter_map_false {α β : Type} (g : α → β) (p : β → Bool)
    (h : ∀ x, p (g x) = false) : ∀ l : List α, (l.map g).filter p = [] := by
  intro l
  induction l with
  | nil => rfl
  | cons x xs ih => simp [List.map_cons, List.filter_cons, h x, ih]

theorem filterMap_map_none {α β γ : Type} (g : α → β) (f : β → Option γ)
    (h : ∀ x, f (g x) = none) : ∀ l : List α, (l.map g).filterMap f = [] := by
  intro l
  induction l with
  | nil => rfl
  | cons x xs ih => simp [List.map_cons, List.filterMap_cons, h x, ih]

theorem filterMap_map_self {α β : Type} (g : α → β) (f : β → Option α)
    (h : ∀ x, f (g x) = some x) : ∀ l : List α, (l.map g).filterMap f = l := by
  intro l
  induction l with
  | nil => rfl
  | cons x xs ih => simp [List.map_cons, List.filterMap_cons, h x, ih]

/-! ### The four branches of `execute`, under their path conditions -/

theorem execute_missing_key_shape (toolCallId : String) (queries : List String)
    (outcomes : List FetchOutcome) (completionTimes : List Nat) (gen : GenOutcome)
    (apiKey : Option String) (hk : strTruthy apiKey = false) :
    execute apiKey toolCallId queries outcomes completionTimes gen =
      ([], ExecOutcome.raised "Tavily API key not configured.") := by
  simp [execute, hk]

theorem execute_empty_shape (k toolCallId : String) (queries : List String)
    (outcomes : List FetchOutcome) (completionTimes : List Nat) (gen : GenOutcome)
    (hk : k ≠ "")
    (hempty : ∀ r ∈ searchResponsesOf queries outcomes, r.results = []) :
    execute (some k) toolCallId queries outcomes completionTimes gen =
      ([searchingEvent toolCallId,
        statusEvent toolCallId "No results found." (some []) none none],
       ExecOutcome.returned
        { toolCallId := toolCallId
          summary := "No relevant search results found."
          sources := []
          error? := none }) := by
  have hk' : strTruthy (some k) = true := by
    simpa [strTruthy] using bne_iff_ne.mpr hk
  have hfilter : (searchResponsesOf queries outcomes).filter
      (fun r => decide (0 < r.results.length)) = [] := by
    apply filter_all_false
    intro r hr
    simp [hempty r hr]
  have hsrc : allSourcesOf (searchResponsesOf queries outcomes) = [] := by
    simp [allSourcesOf, hfilter]
  have hbatch : batchEventsOf toolCallId (searchResponsesOf queries outcomes) = [] := by
    simp [batchEventsOf, hfilter]
  simp [execute, promiseAll, hk', hsrc, hbatch]

theorem execute_ok_shape (k toolCallId : String) (queries : List String)
    (outcomes : List FetchOutcome) (completionTimes : List Nat) (gen : GenOutcome)
    (hk : k ≠ "")
    (hsrc : allSourcesOf (searchResponsesOf queries outcomes) ≠ [])
    (hok : gen.error? = none) :
    execute (some k) toolCallId queries outcomes completionTimes gen =
      ([searchingEvent toolCallId]
        ++ batchEventsOf toolCallId (searchResponsesOf queries outcomes)
        ++ [statusEvent toolCallId "Summarizing..."
              (some ((allSourcesOf (searchResponsesOf queries outcomes)).map
                serializeSearchResult)) none none]
        ++ gen.deltas.map (fun d => summaryDeltaEvent toolCallId d)
        ++ [statusEvent toolCallId "Complete"
              (some ((allSourcesOf (searchResponsesOf queries outcomes)).map
                serializeSearchResult))
              (some (gen.deltas.foldl (fun acc d => acc ++ d) "")) none],
       ExecOutcome.returned
        { toolCallId := toolCallId
          summary := gen.deltas.foldl (fun acc d => acc ++ d) ""
          sources := (allSourcesOf (searchResponsesOf queries outcomes)).map
            (fun s => { url := s.url, title := s.title, content := s.content.take 150 ++ "..." })
          error? := none }) := by
  have hk' : strTruthy (some k) = true := by
    simpa [strTruthy] using bne_iff_ne.mpr hk
  have hlen : ¬ (allSourcesOf (searchResponsesOf queries outcomes)).length = 0 := by
    simpa [List.length_eq_zero] using hsrc
  simp [execute, promiseAll, hk', hlen, hok]

theorem execute_genfail_shape (k toolCallId : String) (queries : List String)
    (outcomes : List FetchOutcome) (completionTimes : List Nat) (gen : GenOutcome)
    (msg : String) (hk : k ≠ "")
    (hsrc : allSourcesOf (searchResponsesOf queries outcomes) ≠ [])
    (hfail : gen.error? = some msg) :
    execute (some k) toolCallId queries outcomes completionTimes gen =
      ([searchingEvent toolCallId]
        ++ batchEventsOf toolCallId (searchResponsesOf queries outcomes)
        ++ [statusEvent toolCallId "Summarizing..."
              (some ((allSourcesOf (searchResponsesOf queries outcomes)).map
                serializeSearchResult)) none none]
        ++ gen.deltas.map (fun d => summaryDeltaEvent toolCallId d)
        ++ [errorStatusEvent toolCallId msg],
       ExecOutcome.returned
        { toolCallId := toolCallId
          summary := "An error occurred during the search."
          sources := []
          error? := some msg }) := by
  have hk' : strTruthy (some k) = true := by
    simpa [strTruthy] using bne_iff_ne.mpr hk
  have hlen : ¬ (allSourcesOf (searchResponsesOf queries outcomes)).length = 0 := by
    simpa [List.length_eq_zero] using hsrc
  simp [execute, promiseAll, hk', hlen, hfail]

/-! ### Fragment and batch-event extraction lemmas -/

theorem deltaFragments_append (l₁ l₂ : List DataStreamDelta) :
    deltaFragments (l₁ ++ l₂) = deltaFragments l₁ ++ deltaFragments l₂ :=
  List.filterMap_append l₁ l₂ _

theorem deltaFragments_batch (toolCallId : String)
    (responses : List TavilySearchResponse) :
    deltaFragments (batchEventsOf toolCallId responses) = [] := by
  unfold deltaFragments batchEventsOf
  apply filterMap_map_none
  intro x
  rfl

theorem deltaFragments_deltas (toolCallId : String) (ds : List String) :
    deltaFragments (ds.map (fun d => summaryDeltaEvent toolCallId d)) = ds := by
  unfold deltaFragments
  apply filterMap_map_self
  intro x
  rfl

theorem isSourcesEvent_statusEvent (toolCallId status : String)
    (so : Option (List TavilySearchResult)) (su er : Option String) :
    isSourcesEvent (statusEvent toolCallId status so su er) = false := rfl

theorem isSourcesEvent_searching (toolCallId : String) :
    isSourcesEvent (searchingEvent toolCallId) = false := rfl

theorem isSourcesEvent_errorStatus (toolCallId message : String) :
    isSourcesEvent (errorStatusEvent toolCallId message) = false := rfl

theorem isSourcesEvent_delta (toolCallId delta : String) :
    isSourcesEvent (summaryDeltaEvent toolCallId delta) = false := rfl

theorem sources_filter_batch (toolCallId : String)
    (responses : List TavilySearchResponse) :
    (batchEventsOf toolCallId responses).filter isSourcesEvent
      = batchEventsOf toolCallId responses := by
  unfold batchEventsOf
  apply filter_map_true
  intro x
  rfl

theorem sources_filter_deltas (toolCallId : String) (ds : List String) :
    (ds.map (fun d => summaryDeltaEvent toolCallId d)).filter isSourcesEvent = [] := by
  apply filter_map_false
  intro x
  rfl

/-- Claim C9: the tool raises only when the API credential is absent (unset
or empty environment value), and in that case it raises before any event is
written — the event list is empty; with a present credential `execute` always
returns (never raises). -/
theorem missing_credential_raises_before_events :
    (∀ (toolCallId : String) (queries : List String) (outcomes : List FetchOutcome)
        (completionTimes : List Nat) (gen : GenOutcome),
      execute none toolCallId queries outcomes completionTimes gen
          = ([], ExecOutcome.raised "Tavily API key not configured.")
        ∧ execute (some "") toolCallId queries outcomes completionTimes gen
          = ([], ExecOutcome.raised "Tavily API key not configured."))
    ∧ ∀ (k toolCallId : String) (queries : List String) (outcomes : List FetchOutcome)
        (completionTimes : List Nat) (gen : GenOutcome), k ≠ "" →
      ∃ ret, (execute (some k) toolCallId queries outcomes completionTimes gen).2
        = ExecOutcome.returned ret := by
  constructor
  · intro toolCallId queries outcomes completionTimes gen
    exact ⟨execute_missing_key_shape toolCallId queries outcomes completionTimes gen none rfl,
      execute_missing_key_shape toolCallId queries outcomes completionTimes gen (some "") rfl⟩
  · intro k toolCallId queries outcomes completionTimes gen hk
    have hk' : strTruthy (some k) = true := by
      simpa [strTruthy] using bne_iff_ne.mpr hk
    by_cases hlen : (allSourcesOf (searchResponsesOf queries outcomes)).length = 0
    · refine ⟨⟨toolCallId, "No relevant search results found.", [], none⟩, ?_⟩
      simp [execute, promiseAll, hk', hlen]
    · cases hgen : gen.error? with
      | none =>
          refine ⟨⟨toolCallId, gen.deltas.foldl (fun acc d => acc ++ d) "",
            (allSourcesOf (searchResponsesOf queries outcomes)).map
              (fun s => ⟨s.url, s.title, s.content.take 150 ++ "..."⟩), none⟩, ?_⟩
          simp [execute, promiseAll, hk', hlen, hgen]
      | some msg =>
          refine ⟨⟨toolCallId, "An error occurred during the search.", [], some msg⟩, ?_⟩
          simp [execute, promiseAll, hk', hlen, hgen]

/-- Claim C6: when every settled sub-query carries zero results, the tool
emits exactly the initial 'Searching...' event and a terminal 'No results
found.' event with an empty sources list, returns {toolCallId, summary: "No
relevant search results found.", sources: []}, and the whole behaviour is
independent of the summarization generator (which is never consulted): no
'summary-delta' and no 'Summarizing...' event appears. -/
theorem no_results_terminal (k toolCallId : String) (queries : List String)
    (outcomes : List FetchOutcome) (completionTimes : List Nat) (gen : GenOutcome)
    (hk : k ≠ "")
    (hempty : ∀ r ∈ searchResponsesOf queries outcomes, r.results = []) :
    execute (some k) toolCallId queries outcomes completionTimes gen =
      ([searchingEvent toolCallId,
        statusEvent toolCallId "No results found." (some []) none none],
       ExecOutcome.returned
        { toolCallId := toolCallId
          summary := "No relevant search results found."
          sources := []
          error? := none }) :=
  execute_empty_shape k toolCallId queries outcomes completionTimes gen hk hempty

/-- Claim C7: when an error escapes inside the main try block (modelled by
the summarization generator failing with a message after zero or more
fragments), `execute` does not re-raise: its event list terminates with the
'Error occurred during search.' status event carrying that message, and it
returns the error-flagged result object. -/
theorem generator_failure_recovered (k toolCallId : String) (queries : List String)
    (outcomes : List FetchOutcome) (completionTimes : List Nat) (gen : GenOutcome)
    (msg : String) (hk : k ≠ "")
    (hsrc : allSourcesOf (searchResponsesOf queries outcomes) ≠ [])
    (hfail : gen.error? = some msg) :
    (∃ pre, (execute (some k) toolCallId queries outcomes completionTimes gen).1
        = pre ++ [errorStatusEvent toolCallId msg])
    ∧ (execute (some k) toolCallId queries outcomes completionTimes gen).2
        = ExecOutcome.returned
          { toolCallId := toolCallId
            summary := "An error occurred during the search."
            sources := []
            error? := some msg } := by
  rw [execute_genfail_shape k toolCallId queries outcomes completionTimes gen msg hk hsrc hfail]
  constructor
  · refine ⟨[searchingEvent toolCallId]
      ++ batchEventsOf toolCallId (searchResponsesOf queries outcomes)
      ++ [statusEvent toolCallId "Summarizing..."
            (some ((allSourcesOf (searchResponsesOf queries outcomes)).map
              serializeSearchResult)) none none]
      ++ gen.deltas.map (fun d => summaryDeltaEvent toolCallId d), ?_⟩
    simp
  · rfl

/-- Claim C4: on every run that reaches the terminal 'Complete' status, the
concatenation (in emission order) of the fragments carried by the
'summary-delta' events equals the summary field of the final 'Complete'
status event and the summary field of the returned result object. -/
theorem summary_deltas_concat_complete (k toolCallId : String)
    (queries : List String) (outcomes : List FetchOutcome)
    (completionTimes : List Nat) (gen : GenOutcome) (hk : k ≠ "")
    (hsrc : allSourcesOf (searchResponsesOf queries outcomes) ≠ [])
    (hok : gen.error? = none) :
    ∃ pre srcs s,
      (execute (some k) toolCallId queries outcomes completionTimes gen).1
        = pre ++ [statusEvent toolCallId "Complete" (some srcs) (some s) none]
      ∧ (deltaFragments
          (execute (some k) toolCallId queries outcomes completionTimes gen).1).foldl
          (fun acc d => acc ++ d) "" = s
      ∧ ∃ ret, (execute (some k) toolCallId queries outcomes completionTimes gen).2
          = ExecOutcome.returned ret ∧ ret.summary = s ∧ ret.error? = none := by
  have hp := execute_ok_shape k toolCallId queries outcomes completionTimes gen hk hsrc hok
  have h1 : (execute (some k) toolCallId queries outcomes completionTimes gen).1
      = [searchingEvent toolCallId]
        ++ batchEventsOf toolCallId (searchResponsesOf queries outcomes)
        ++ [statusEvent toolCallId "Summarizing..."
              (some ((allSourcesOf (searchResponsesOf queries outcomes)).map
                serializeSearchResult)) none none]
        ++ gen.deltas.map (fun d => summaryDeltaEvent toolCallId d)
        ++ [statusEvent toolCallId "Complete"
              (some ((allSourcesOf (searchResponsesOf queries outcomes)).map
                serializeSearchResult))
              (some (gen.deltas.foldl (fun acc d => acc ++ d) "")) none] := by
    rw [hp]
  have h2 : (execute (some k) toolCallId queries outcomes completionTimes gen).2
      = ExecOutcome.returned
        { toolCallId := toolCallId
          summary := gen.deltas.foldl (fun acc d => acc ++ d) ""
          sources := (allSourcesOf (searchResponsesOf queries outcomes)).map
            (fun s => { url := s.url, title := s.title, content := s.content.take 150 ++ "..." })
          error? := none } := by
    rw [hp]
  have hdf : deltaFragments
      ([searchingEvent toolCallId]
        ++ batchEventsOf toolCallId (searchResponsesOf queries outcomes)
        ++ [statusEvent toolCallId "Summarizing..."
              (some ((allSourcesOf (searchResponsesOf queries outcomes)).map
                serializeSearchResult)) none none]
        ++ gen.deltas.map (fun d => summaryDeltaEvent toolCallId d)
        ++ [statusEvent toolCallId "Complete"
              (some ((allSourcesOf (searchResponsesOf queries outcomes)).map
                serializeSearchResult))
              (some (gen.deltas.foldl (fun acc d => acc ++ d) "")) none])
      = gen.deltas := by
    rw [deltaFragments_append, deltaFragments_append, deltaFragments_append,
      deltaFragments_append, deltaFragments_batch, deltaFragments_deltas]
    simp [deltaFragments, searchingEvent, statusEvent]
  rw [h1, h2]
  refine ⟨[searchingEvent toolCallId]
      ++ batchEventsOf toolCallId (searchResponsesOf queries outcomes)
      ++ [statusEvent toolCallId "Summarizing..."
            (some ((allSourcesOf (searchResponsesOf queries outcomes)).map
              serializeSearchResult)) none none]
      ++ gen.deltas.map (fun d => summaryDeltaEvent toolCallId d),
    (allSourcesOf (searchResponsesOf queries outcomes)).map serializeSearchResult,
    gen.deltas.foldl (fun acc d => acc ++ d) "", ?_, ?_, ?_⟩
  · simp
  · rw [hdf]
  · exact ⟨_, rfl, rfl, rfl⟩

theorem status_of_batch_event (toolCallId : String)
    (responses : List TavilySearchResponse) :
    ∀ e ∈ batchEventsOf toolCallId responses, e.content.status? = none := by
  unfold batchEventsOf
  intro e he
  obtain ⟨r, _, rfl⟩ := List.mem_map.mp he
  rfl

theorem status_of_delta_event (toolCallId : String) (ds : List String) :
    ∀ e ∈ ds.map (fun d => summaryDeltaEvent toolCallId d), e.content.status? = none := by
  intro e he
  obtain ⟨d, _, rfl⟩ := List.mem_map.mp he
  rfl

theorem allSourcesOf_eq_flatten (responses : List TavilySearchResponse) :
    allSourcesOf responses = (responses.map (fun r => r.results.take 5)).flatten := by
  induction responses with
  | nil => rfl
  | cons r t ih =>
      show ((List.filter _ (r :: t)).map _).flatten = _
      rw [List.filter_cons]
      by_cases h : 0 < r.results.length
      · rw [if_pos (by simpa using h), List.map_cons, List.flatten_cons, List.map_cons,
          List.flatten_cons]
        exact congrArg (r.results.take 5 ++ ·) ih
      · have hres : r.results = [] :=
          List.length_eq_zero.mp (Nat.eq_zero_of_not_pos h)
        rw [if_neg (by simpa using h), List.map_cons, List.flatten_cons, hres]
        simpa using ih

/-- Claim C8: the per-query Result Source Client never raises — every failed
fetch outcome (thrown fetch, non-success HTTP status) is mapped to
{query, results: []} — and a batch containing such a failed query still
terminates in 'Complete' (never the Error status) when the other queries'
results are non-empty. -/
theorem per_query_failure_absorbed :
    (∀ (query : String) (outcome : FetchOutcome), outcome.isFailure = true →
      searchQuery query outcome = ⟨query, 0, []⟩)
    ∧ ∀ (k toolCallId : String) (queries : List String) (outcomes : List FetchOutcome)
        (completionTimes : List Nat) (gen : GenOutcome) (msg : String),
        k ≠ "" → FetchOutcome.fetchError msg ∈ outcomes →
        allSourcesOf (searchResponsesOf queries outcomes) ≠ [] → gen.error? = none →
        (∃ pre srcs s,
          (execute (some k) toolCallId queries outcomes completionTimes gen).1
            = pre ++ [statusEvent toolCallId "Complete" (some srcs) (some s) none])
        ∧ ∀ e ∈ (execute (some k) toolCallId queries outcomes completionTimes gen).1,
            e.content.status? ≠ some "Error occurred during search." := by
  constructor
  · intro query outcome hfail
    cases outcome with
    | ok r => simp [FetchOutcome.isFailure] at hfail
    | httpError s => rfl
    | fetchError m => rfl
  · intro k toolCallId queries outcomes completionTimes gen msg hk hmem hsrc hok
    have hp := execute_ok_shape k toolCallId queries outcomes completionTimes gen hk hsrc hok
    have h1 : (execute (some k) toolCallId queries outcomes completionTimes gen).1
        = [searchingEvent toolCallId]
          ++ batchEventsOf toolCallId (searchResponsesOf queries outcomes)
          ++ [statusEvent toolCallId "Summarizing..."
                (some ((allSourcesOf (searchResponsesOf queries outcomes)).map
                  serializeSearchResult)) none none]
          ++ gen.deltas.map (fun d => summaryDeltaEvent toolCallId d)
          ++ [statusEvent toolCallId "Complete"
                (some ((allSourcesOf (searchResponsesOf queries outcomes)).map
                  serializeSearchResult))
                (some (gen.deltas.foldl (fun acc d => acc ++ d) "")) none] := by
      rw [hp]
    constructor
    · refine ⟨[searchingEvent toolCallId]
          ++ batchEventsOf toolCallId (searchResponsesOf queries outcomes)
          ++ [statusEvent toolCallId "Summarizing..."
                (some ((allSourcesOf (searchResponsesOf queries outcomes)).map
                  serializeSearchResult)) none none]
          ++ gen.deltas.map (fun d => summaryDeltaEvent toolCallId d),
        (allSourcesOf (searchResponsesOf queries outcomes)).map serializeSearchResult,
        gen.deltas.foldl (fun acc d => acc ++ d) "", ?_⟩
      rw [h1]
    · intro e he
      rw [h1] at he
      simp only [List.mem_append, List.mem_singleton] at he
      rcases he with ((((he | he) | he) | he) | he)
      · subst he
        simp [searchingEvent, statusEvent]
      · rw [status_of_batch_event toolCallId (searchResponsesOf queries outcomes) e he]
        simp
      · subst he
        simp [statusEvent]
      · rw [status_of_delta_event toolCallId gen.deltas e he]
        simp
      · subst he
        simp [statusEvent]

/-- Claim C1 counterexample: with two queries each returning a record with
url "u" (distinct titles), the 'Summarizing...' status event — and the
'Complete' status event — carry an accumulated source list holding the url
"u" twice, so the server-side accumulated Source Set is not deduplicated by
url. -/
theorem summarizing_event_carries_duplicate_url :
    c1Stream[3]? = some (statusEvent "call1" "Summarizing..."
        (some [r1demo, r2demo]) none none)
    ∧ c1Stream[5]? = some (statusEvent "call1" "Complete"
        (some [r1demo, r2demo]) (some "s") none)
    ∧ r1demo.url = r2demo.url ∧ r1demo ≠ r2demo := by
  refine ⟨rfl, rfl, rfl, by decide⟩

/-- Claim C1 (amended): the server-side accumulated source list is the plain
concatenation of each query's capped result slice, in submission order, with
no url dedup — whatever duplicates it holds are carried (serialized) on the
'Summarizing...' status event, and on the terminal 'Complete' status event
when summarization succeeds. -/
theorem accumulated_sources_concat_no_dedup (k toolCallId : String)
    (queries : List String) (outcomes : List FetchOutcome)
    (completionTimes : List Nat) (gen : GenOutcome) (hk : k ≠ "")
    (hsrc : allSourcesOf (searchResponsesOf queries outcomes) ≠ []) :
    allSourcesOf (searchResponsesOf queries outcomes)
      = ((searchResponsesOf queries outcomes).map (fun r => r.results.take 5)).flatten
    ∧ (∃ rest,
        (execute (some k) toolCallId queries outcomes completionTimes gen).1
          = [searchingEvent toolCallId]
            ++ batchEventsOf toolCallId (searchResponsesOf queries outcomes)
            ++ [statusEvent toolCallId "Summarizing..."
                 (some ((allSourcesOf (searchResponsesOf queries outcomes)).map
                   serializeSearchResult)) none none]
            ++ rest)
    ∧ (gen.error? = none →
        ∃ pre, (execute (some k) toolCallId queries outcomes completionTimes gen).1
          = pre ++ [statusEvent toolCallId "Complete"
              (some ((allSourcesOf (searchResponsesOf queries outcomes)).map
                serializeSearchResult))
              (some (gen.deltas.foldl (fun acc d => acc ++ d) "")) none]) := by
  refine ⟨allSourcesOf_eq_flatten _, ?_, ?_⟩
  · cases hgen : gen.error? with
    | none =>
        have hp := execute_ok_shape k toolCallId queries outcomes completionTimes gen hk hsrc hgen
        refine ⟨gen.deltas.map (fun d => summaryDeltaEvent toolCallId d)
          ++ [statusEvent toolCallId "Complete"
              (some ((allSourcesOf (searchResponsesOf queries outcomes)).map
                serializeSearchResult))
              (some (gen.deltas.foldl (fun acc d => acc ++ d) "")) none], ?_⟩
        rw [hp]
        simp
    | some msg =>
        have hp := execute_genfail_shape k toolCallId queries outcomes completionTimes gen msg
          hk hsrc hgen
        refine ⟨gen.deltas.map (fun d => summaryDeltaEvent toolCallId d)
          ++ [errorStatusEvent toolCallId msg], ?_⟩
        rw [hp]
        simp
  · intro hok
    have hp := execute_ok_shape k toolCallId queries outcomes completionTimes gen hk hsrc hok
    refine ⟨[searchingEvent toolCallId]
        ++ batchEventsOf toolCallId (searchResponsesOf queries outcomes)
        ++ [statusEvent toolCallId "Summarizing..."
              (some ((allSourcesOf (searchResponsesOf queries outcomes)).map
                serializeSearchResult)) none none]
        ++ gen.deltas.map (fun d => summaryDeltaEvent toolCallId d), ?_⟩
    rw [hp]

/-- Claim C5 counterexample: with two queries whose fetches settle in the
opposite order to their submission (settle times [5, 1], completion order
[1, 0]), the 'tavily-search-sources' events are still emitted in submission
order — not in the fetches' completion order. -/
theorem emission_not_completion_order :
    completionOrder [5, 1] = [1, 0]
    ∧ completionOrder [5, 1] ≠ [0, 1]
    ∧ c5Stream.filter isSourcesEvent
        = [sourcesEvent "call5" [raDemo], sourcesEvent "call5" [rbDemo]]
    ∧ c5Stream.filter isSourcesEvent
        ≠ permuteByOrder (c5Stream.filter isSourcesEvent) (completionOrder [5, 1]) := by
  refine ⟨rfl, by decide, rfl, by decide⟩

/-- Claim C5 (amended): the 'tavily-search-sources' events are emitted after
the all-complete barrier in query-submission order (the order of the settled
responses array) — the order in which the fetches settle has no effect on the
emitted event list. -/
theorem batch_emission_submission_order (k toolCallId : String)
    (queries : List String) (outcomes : List FetchOutcome) (gen : GenOutcome)
    (completionTimes completionTimes' : List Nat) (hk : k ≠ "") :
    (execute (some k) toolCallId queries outcomes completionTimes gen).1.filter isSourcesEvent
      = batchEventsOf toolCallId (searchResponsesOf queries outcomes)
    ∧ (execute (some k) toolCallId queries outcomes completionTimes gen).1.filter
        isSourcesEvent
      = (execute (some k) toolCallId queries outcomes completionTimes' gen).1.filter
        isSourcesEvent := by
  suffices h : ∀ ts : List Nat,
      (execute (some k) toolCallId queries outcomes ts gen).1.filter isSourcesEvent
        = batchEventsOf toolCallId (searchResponsesOf queries outcomes) by
    exact ⟨h completionTimes, (h completionTimes).trans (h completionTimes').symm⟩
  intro ts
  have hk' : strTruthy (some k) = true := by
    simpa [strTruthy] using bne_iff_ne.mpr hk
  by_cases hlen : (allSourcesOf (searchResponsesOf queries outcomes)).length = 0
  · simp [execute, promiseAll, hk', hlen, List.filter_append, List.filter_cons,
      isSourcesEvent_searching, isSourcesEvent_statusEvent, sources_filter_batch]
  · cases hgen : gen.error? with
    | none =>
        simp [execute, promiseAll, hk', hlen, hgen, List.filter_append, List.filter_cons,
          isSourcesEvent_searching, isSourcesEvent_statusEvent, sources_filter_batch,
          sources_filter_deltas]
    | some msg =>
        simp [execute, promiseAll, hk', hlen, hgen, List.filter_append, List.filter_cons,
          isSourcesEvent_searching, isSourcesEvent_statusEvent, isSourcesEvent_errorStatus,
          sources_filter_batch, sources_filter_deltas]

/-! ### The client fold's source accumulation, reduced to batch merging -/

theorem hasUrl_iff (s : List TavilySearchResult) (u : String) :
    hasUrl s u = true ↔ ∃ e ∈ s, e.url = u := by
  simp [hasUrl, List.any_eq_true]

theorem applyDelta_sources (st : ReducerState) (d : DataStreamDelta) :
    (applyDelta st d).sources = mergeSources st.sources (eventSources d) := by
  cases htype : d.type <;> cases hs : d.content.sources? <;>
    simp [applyDelta, eventSources, mergeIfPresent, mergeSources, htype, hs]

theorem foldEvents_sources (events : List DataStreamDelta) :
    ∀ st : ReducerState,
      (foldEvents st events).sources = mergeAll st.sources (events.map eventSources) := by
  induction events with
  | nil => intro st; rfl
  | cons d es ih =>
      intro st
      show (foldEvents (applyDelta st d) es).sources = _
      rw [ih (applyDelta st d), applyDelta_sources]
      rfl

theorem uniqueSourcesAux_append (l₁ l₂ : List TavilySearchResult) :
    ∀ seen, uniqueSourcesAux seen (l₁ ++ l₂)
      = uniqueSourcesAux seen l₁ ++ uniqueSourcesAux (seenAfter seen l₁) l₂ := by
  induction l₁ with
  | nil => intro seen; rfl
  | cons x xs ih =>
      intro seen
      by_cases h : x.url ∈ seen
      · simp [uniqueSourcesAux, seenAfter, h, ih]
      · simp [uniqueSourcesAux, seenAfter, h, ih]

theorem mem_seenAfter (l : List TavilySearchResult) :
    ∀ seen u, u ∈ seenAfter seen l ↔ u ∈ seen ∨ ∃ x ∈ l, x.url = u := by
  induction l with
  | nil => intro seen u; simp [seenAfter]
  | cons x xs ih =>
      intro seen u
      by_cases h : x.url ∈ seen
      · rw [show seenAfter seen (x :: xs) = seenAfter seen xs from by
          simp [seenAfter, h], ih seen u]
        constructor
        · rintro (hu | ⟨y, hy, rfl⟩)
          · exact Or.inl hu
          · exact Or.inr ⟨y, List.mem_cons_of_mem x hy, rfl⟩
        · rintro (hu | ⟨y, hy, rfl⟩)
          · exact Or.inl hu
          · rcases List.mem_cons.mp hy with rfl | hy'
            · exact Or.inl h
            · exact Or.inr ⟨y, hy', rfl⟩
      · rw [show seenAfter seen (x :: xs) = seenAfter (x.url :: seen) xs from by
          simp [seenAfter, h], ih (x.url :: seen) u]
        constructor
        · rintro (hu | ⟨y, hy, rfl⟩)
          · rcases List.mem_cons.mp hu with rfl | hu'
            · exact Or.inr ⟨x, List.mem_cons_self x xs, rfl⟩
            · exact Or.inl hu'
          · exact Or.inr ⟨y, List.mem_cons_of_mem x hy, rfl⟩
        · rintro (hu | ⟨y, hy, rfl⟩)
          · exact Or.inl (List.mem_cons_of_mem _ hu)
          · rcases List.mem_cons.mp hy with rfl | hy'
            · exact Or.inl (List.mem_cons_self _ _)
            · exact Or.inr ⟨y, hy', rfl⟩

theorem uniqueSourcesAux_drop_dup (s : List TavilySearchResult) :
    ∀ (ns : List TavilySearchResult) (seen : List String)
      (t : List TavilySearchResult),
      (∀ n ∈ ns, hasUrl s n.url = true → n.url ∈ seen) →
      uniqueSourcesAux seen (ns.filter (fun n => !(hasUrl s n.url)) ++ t)
        = uniqueSourcesAux seen (ns ++ t) := by
  intro ns
  induction ns with
  | nil => intro seen t _; rfl
  | cons n ns' ih =>
      intro seen t hcond
      rcases hn : hasUrl s n.url with _ | _
      · -- the filter keeps n
        rw [List.filter_cons_of_pos (by simp [hn])]
        by_cases hmem : n.url ∈ seen
        · rw [List.cons_append, List.cons_append]
          show uniqueSourcesAux seen _ = uniqueSourcesAux seen _
          rw [show uniqueSourcesAux seen
              (n :: (List.filter (fun n => !(hasUrl s n.url)) ns' ++ t))
              = uniqueSourcesAux seen
                (List.filter (fun n => !(hasUrl s n.url)) ns' ++ t) from by
            simp [uniqueSourcesAux, hmem]]
          rw [show uniqueSourcesAux seen (n :: (ns' ++ t))
              = uniqueSourcesAux seen (ns' ++ t) from by
            simp [uniqueSourcesAux, hmem]]
          exact ih seen t (fun m hm hu => hcond m (List.mem_cons_of_mem n hm) hu)
        · rw [List.cons_append, List.cons_append]
          rw [show uniqueSourcesAux seen
              (n :: (List.filter (fun n => !(hasUrl s n.url)) ns' ++ t))
              = n :: uniqueSourcesAux (n.url :: seen)
                (List.filter (fun n => !(hasUrl s n.url)) ns' ++ t) from by
            simp [uniqueSourcesAux, hmem]]
          rw [show uniqueSourcesAux seen (n :: (ns' ++ t))
              = n :: uniqueSourcesAux (n.url :: seen) (ns' ++ t) from by
            simp [uniqueSourcesAux, hmem]]
          exact congrArg (n :: ·) (ih (n.url :: seen) t
            (fun m hm hu => List.mem_cons_of_mem _
              (hcond m (List.mem_cons_of_mem n hm) hu)))
      · -- the filter drops n, whose url is already seen
        rw [List.filter_cons_of_neg (by simp [hn])]
        have hmem : n.url ∈ seen := hcond n (List.mem_cons_self n ns') hn
        rw [List.cons_append]
        rw [show uniqueSourcesAux seen (n :: (ns' ++ t))
            = uniqueSourcesAux seen (ns' ++ t) from by
          simp [uniqueSourcesAux, hmem]]
        exact ih seen t (fun m hm hu => hcond m (List.mem_cons_of_mem n hm) hu)

theorem uniqueSources_merge_append (s ns t : List TavilySearchResult) :
    uniqueSourcesAux [] (mergeSources s ns ++ t)
      = uniqueSourcesAux [] (s ++ (ns ++ t)) := by
  have hcond : ∀ n ∈ ns, hasUrl s n.url = true → n.url ∈ seenAfter [] s := by
    intro n _ hu
    rw [mem_seenAfter]
    obtain ⟨e, he, heq⟩ := (hasUrl_iff s n.url).mp hu
    exact Or.inr ⟨e, he, heq⟩
  show uniqueSourcesAux [] ((s ++ ns.filter (fun n => !(hasUrl s n.url))) ++ t) = _
  rw [List.append_assoc, uniqueSourcesAux_append s,
    uniqueSourcesAux_drop_dup s ns (seenAfter [] s) t hcond,
    ← uniqueSourcesAux_append]

theorem uniqueSources_mergeAll (batches : List (List TavilySearchResult)) :
    ∀ s, uniqueSources (mergeAll s batches) = uniqueSources (s ++ batches.flatten) := by
  induction batches with
  | nil => intro s; simp [mergeAll, uniqueSources]
  | cons b bs ih =>
      intro s
      show uniqueSources (mergeAll (mergeSources s b) bs) = _
      rw [ih (mergeSources s b)]
      show uniqueSourcesAux [] (mergeSources s b ++ bs.flatten) = _
      rw [uniqueSources_merge_append s b bs.flatten]
      rfl

/-! ### First-seen properties of the unique filter -/

theorem uniqueSourcesAux_not_seen_pairwise (l : List TavilySearchResult) :
    ∀ seen, (∀ r ∈ uniqueSourcesAux seen l, r.url ∉ seen)
      ∧ List.Pairwise (fun a b => a.url ≠ b.url) (uniqueSourcesAux seen l) := by
  induction l with
  | nil => intro seen; exact ⟨fun r hr => absurd hr (List.not_mem_nil r), List.Pairwise.nil⟩
  | cons x xs ih =>
      intro seen
      by_cases h : x.url ∈ seen
      · rw [show uniqueSourcesAux seen (x :: xs) = uniqueSourcesAux seen xs from by
          simp [uniqueSourcesAux, h]]
        exact ih seen
      · rw [show uniqueSourcesAux seen (x :: xs)
            = x :: uniqueSourcesAux (x.url :: seen) xs from by
          simp [uniqueSourcesAux, h]]
        constructor
        · intro r hr
          rcases List.mem_cons.mp hr with rfl | hr'
          · exact h
          · intro hu
            exact (ih (x.url :: seen)).1 r hr' (List.mem_cons_of_mem _ hu)
        · refine List.Pairwise.cons ?_ (ih (x.url :: seen)).2
          intro r hr hequ
          exact (ih (x.url :: seen)).1 r hr (hequ ▸ List.mem_cons_self _ _)

theorem uniqueSourcesAux_first_seen (l : List TavilySearchResult) :
    ∀ seen r, r ∈ uniqueSourcesAux seen l →
      r.url ∉ seen ∧ l.find? (fun s => s.url == r.url) = some r := by
  induction l with
  | nil => intro seen r hr; exact absurd hr (List.not_mem_nil r)
  | cons x xs ih =>
      intro seen r hr
      by_cases h : x.url ∈ seen
      · rw [show uniqueSourcesAux seen (x :: xs) = uniqueSourcesAux seen xs from by
          simp [uniqueSourcesAux, h]] at hr
        obtain ⟨hnseen, hfind⟩ := ih seen r hr
        have hne : ¬ x.url = r.url := fun hequ => hnseen (hequ ▸ h)
        refine ⟨hnseen, ?_⟩
        rw [List.find?_cons_of_neg _ (by simpa using hne), hfind]
      · rw [show uniqueSourcesAux seen (x :: xs)
            = x :: uniqueSourcesAux (x.url :: seen) xs from by
          simp [uniqueSourcesAux, h]] at hr
        rcases List.mem_cons.mp hr with rfl | hr'
        · exact ⟨h, by rw [List.find?_cons_of_pos _ (by simp)]⟩
        · obtain ⟨hnseen, hfind⟩ := ih (x.url :: seen) r hr'
          have hne : ¬ x.url = r.url := fun hequ =>
            hnseen (hequ ▸ List.mem_cons_self _ _)
          refine ⟨fun hu => hnseen (List.mem_cons_of_mem _ hu), ?_⟩
          rw [List.find?_cons_of_neg _ (by simpa using hne), hfind]

theorem uniqueSourcesAux_covers (l : List TavilySearchResult) :
    ∀ seen u, (∃ s ∈ l, s.url = u) →
      u ∈ seen ∨ ∃ r ∈ uniqueSourcesAux seen l, r.url = u := by
  induction l with
  | nil => rintro seen u ⟨s, hs, rfl⟩; exact absurd hs (List.not_mem_nil s)
  | cons x xs ih =>
      rintro seen u ⟨s, hs, rfl⟩
      by_cases h : x.url ∈ seen
      · rw [show uniqueSourcesAux seen (x :: xs) = uniqueSourcesAux seen xs from by
          simp [uniqueSourcesAux, h]]
        rcases List.mem_cons.mp hs with rfl | hs'
        · exact Or.inl h
        · exact ih seen s.url ⟨s, hs', rfl⟩
      · rw [show uniqueSourcesAux seen (x :: xs)
            = x :: uniqueSourcesAux (x.url :: seen) xs from by
          simp [uniqueSourcesAux, h]]
        rcases List.mem_cons.mp hs with rfl | hs'
        · exact Or.inr ⟨s, List.mem_cons_self _ _, rfl⟩
        · rcases ih (x.url :: seen) s.url ⟨s, hs', rfl⟩ with hu | ⟨r, hr, hru⟩
          · rcases List.mem_cons.mp hu with hequ | hu'
            · exact Or.inr ⟨x, List.mem_cons_self _ _, hequ.symm⟩
            · exact Or.inl hu'
          · exact Or.inr ⟨r, List.mem_cons_of_mem _ hr, hru⟩

/-- Claim C2: folding any event sequence for one call identifier — however
its 'sources-batch' and 'status' events overlap in urls — and taking the
component's rendered `uniqueSources` view yields a list whose urls are
pairwise distinct, in which every retained record is exactly the first record
carrying its url in the concatenated payloads (so the record — title, content
and score — comes from the first event that introduced that url), and which
has a record for every url that occurred in any payload. -/
theorem reducer_sources_dedup_first_seen (toolCallId : String)
    (stream : List DataStreamDelta) :
    List.Pairwise (fun a b => a.url ≠ b.url)
      (uniqueSources (foldEvents initialState (relevantDeltasFor toolCallId stream)).sources)
    ∧ (∀ r ∈ uniqueSources
          (foldEvents initialState (relevantDeltasFor toolCallId stream)).sources,
        (((relevantDeltasFor toolCallId stream).map eventSources).flatten).find?
          (fun s => s.url == r.url) = some r)
    ∧ ∀ s ∈ ((relevantDeltasFor toolCallId stream).map eventSources).flatten,
        ∃ r ∈ uniqueSources
          (foldEvents initialState (relevantDeltasFor toolCallId stream)).sources,
          r.url = s.url := by
  have hu : uniqueSources
      (foldEvents initialState (relevantDeltasFor toolCallId stream)).sources
      = uniqueSources (((relevantDeltasFor toolCallId stream).map eventSources).flatten) := by
    rw [foldEvents_sources (relevantDeltasFor toolCallId stream) initialState]
    rw [show initialState.sources = [] from rfl]
    rw [uniqueSources_mergeAll]
    rw [List.nil_append]
  rw [hu]
  refine ⟨(uniqueSourcesAux_not_seen_pairwise _ []).2, ?_, ?_⟩
  · intro r hr
    exact (uniqueSourcesAux_first_seen _ [] r hr).2
  · intro s hsmem
    rcases uniqueSourcesAux_covers _ [] s.url ⟨s, hsmem, rfl⟩ with h | ⟨r, hr, hru⟩
    · exact absurd h (List.not_mem_nil _)
    · exact ⟨r, hr, hru⟩

/-! ### Idempotence of the per-field reducer steps -/

theorem hasUrl_mergeSources (s ns : List TavilySearchResult) :
    ∀ n ∈ ns, hasUrl (mergeSources s ns) n.url = true := by
  intro n hn
  rcases hcase : hasUrl s n.url with _ | _
  · exact (hasUrl_iff _ _).mpr
      ⟨n, List.mem_append.mpr (Or.inr (List.mem_filter.mpr ⟨hn, by simp [hcase]⟩)), rfl⟩
  · obtain ⟨e, he, heq⟩ := (hasUrl_iff s n.url).mp hcase
    exact (hasUrl_iff _ _).mpr ⟨e, List.mem_append.mpr (Or.inl he), heq⟩

theorem mergeSources_idem (s ns : List TavilySearchResult) :
    mergeSources (mergeSources s ns) ns = mergeSources s ns := by
  have h : ns.filter (fun n => !(hasUrl (mergeSources s ns) n.url)) = [] := by
    apply filter_all_false
    intro n hn
    simp [hasUrl_mergeSources s ns n hn]
  calc mergeSources (mergeSources s ns) ns
      = mergeSources s ns ++ ns.filter (fun n => !(hasUrl (mergeSources s ns) n.url)) := rfl
    _ = mergeSources s ns ++ [] := by rw [h]
    _ = mergeSources s ns := List.append_nil _

theorem setIfTruthy_idem (cur : String) (o : Option String) :
    setIfTruthy (setIfTruthy cur o) o = setIfTruthy cur o := by
  cases o with
  | none => rfl
  | some v =>
      rcases hb : (v != "") with _ | _
      · simp [setIfTruthy, hb]
      · simp [setIfTruthy, hb]

theorem setErrIfTruthy_idem (cur : Option String) (o : Option String) :
    setErrIfTruthy (setErrIfTruthy cur o) o = setErrIfTruthy cur o := by
  cases o with
  | none => rfl
  | some v =>
      rcases hb : (v != "") with _ | _
      · simp [setErrIfTruthy, hb]
      · simp [setErrIfTruthy, hb]

theorem mergeIfPresent_idem (cur : List TavilySearchResult)
    (o : Option (List TavilySearchResult)) :
    mergeIfPresent (mergeIfPresent cur o) o = mergeIfPresent cur o := by
  cases o with
  | none => rfl
  | some ns => exact mergeSources_idem cur ns

/-- Claim C3 counterexample: folding the same non-empty 'summary-delta' event
twice does not equal folding it once — the fragment is appended twice — so
the reducer's fold is not idempotent for every event kind. -/
theorem summary_delta_not_idempotent :
    applyDelta (applyDelta initialState (summaryDeltaEvent "c3" "a"))
        (summaryDeltaEvent "c3" "a")
      ≠ applyDelta initialState (summaryDeltaEvent "c3" "a") := by
  decide

/-- Claim C3 (amended): the reducer's fold is idempotent for 'status' and
'sources-batch' events — folding any such event twice equals folding it once
— but a 'summary-delta' event with a non-empty fragment is not idempotent:
folding it twice appends its fragment twice. -/
theorem fold_idempotent_status_sources (st : ReducerState) (d : DataStreamDelta) :
    (d.type = EventType.searchStatus ∨ d.type = EventType.searchSources →
      applyDelta (applyDelta st d) d = applyDelta st d)
    ∧ ∀ f, d.type = EventType.summaryDelta → d.content.delta? = some f → f ≠ "" →
      (applyDelta (applyDelta st d) d).summary = st.summary ++ f ++ f := by
  constructor
  · rintro (h | h) <;>
      simp [applyDelta, h, setIfTruthy_idem, mergeIfPresent_idem, setErrIfTruthy_idem]
  · intro f htype hdelta hf
    simp [applyDelta, htype, hdelta, appendIfTruthy, bne_iff_ne.mpr hf]

/-- Claim C10: the global-error status event carries no sources field and no
summary field, and folding it into any reducer state leaves the accumulated
source list and the summary text unchanged while setting the status to
'Error occurred during search.' (and the error field to the carried
message when that message is non-empty). -/
theorem error_event_frame (toolCallId message : String) (st : ReducerState) :
    (errorStatusEvent toolCallId message).content.sources? = none
    ∧ (errorStatusEvent toolCallId message).content.summary? = none
    ∧ (applyDelta st (errorStatusEvent toolCallId message)).sources = st.sources
    ∧ (applyDelta st (errorStatusEvent toolCallId message)).summary = st.summary
    ∧ (applyDelta st (errorStatusEvent toolCallId message)).status
        = "Error occurred during search."
    ∧ (applyDelta st (errorStatusEvent toolCallId message)).error
        = setErrIfTruthy st.error (some message) := by
  refine ⟨rfl, rfl, ?_, ?_, ?_, ?_⟩
  · simp [applyDelta, errorStatusEvent, mergeIfPresent]
  · simp [applyDelta, errorStatusEvent, setIfTruthy]
  · simp [applyDelta, errorStatusEvent, setIfTruthy]
  · simp [applyDelta, errorStatusEvent]

/-! ### Concrete witnesses -/

theorem accumulated_sources_concat_no_dedup_witness :
    allSourcesOf (searchResponsesOf ["a", "b"]
        [FetchOutcome.ok ⟨"a", 1, [r1demo]⟩, FetchOutcome.ok ⟨"b", 1, [r2demo]⟩])
      = ((searchResponsesOf ["a", "b"]
          [FetchOutcome.ok ⟨"a", 1, [r1demo]⟩, FetchOutcome.ok ⟨"b", 1, [r2demo]⟩]).map
          (fun r => r.results.take 5)).flatten :=
  (accumulated_sources_concat_no_dedup "key" "w1" ["a", "b"]
    [FetchOutcome.ok ⟨"a", 1, [r1demo]⟩, FetchOutcome.ok ⟨"b", 1, [r2demo]⟩]
    [0, 0] ⟨["s"], none⟩ (by decide) (by decide)).1

theorem reducer_sources_dedup_first_seen_witness :
    (((relevantDeltasFor "c2" c2Stream).map eventSources).flatten).find?
        (fun s => s.url == (⟨"A", "u", "ca", (1 : Int)⟩ : TavilySearchResult).url)
      = some ⟨"A", "u", "ca", 1⟩ :=
  (reducer_sources_dedup_first_seen "c2" c2Stream).2.1 ⟨"A", "u", "ca", 1⟩ (by decide)

theorem fold_idempotent_status_sources_witness :
    applyDelta (applyDelta initialState (sourcesEvent "c3" [⟨"t", "u", "c", 1⟩]))
        (sourcesEvent "c3" [⟨"t", "u", "c", 1⟩])
      = applyDelta initialState (sourcesEvent "c3" [⟨"t", "u", "c", 1⟩])
    ∧ (applyDelta (applyDelta initialState (summaryDeltaEvent "c3" "a"))
        (summaryDeltaEvent "c3" "a")).summary = initialState.summary ++ "a" ++ "a" :=
  ⟨(fold_idempotent_status_sources initialState
      (sourcesEvent "c3" [⟨"t", "u", "c", 1⟩])).1 (Or.inr rfl),
   (fold_idempotent_status_sources initialState (summaryDeltaEvent "c3" "a")).2
      "a" rfl rfl (by decide)⟩

theorem summary_deltas_concat_complete_witness :
    ∃ pre srcs s,
      (execute (some "key") "w4" ["q"] [FetchOutcome.ok ⟨"q", 1, [raDemo]⟩] [0]
          ⟨["x", "y"], none⟩).1
        = pre ++ [statusEvent "w4" "Complete" (some srcs) (some s) none]
      ∧ (deltaFragments (execute (some "key") "w4" ["q"]
          [FetchOutcome.ok ⟨"q", 1, [raDemo]⟩] [0] ⟨["x", "y"], none⟩).1).foldl
          (fun acc d => acc ++ d) "" = s
      ∧ ∃ ret, (execute (some "key") "w4" ["q"] [FetchOutcome.ok ⟨"q", 1, [raDemo]⟩] [0]
          ⟨["x", "y"], none⟩).2 = ExecOutcome.returned ret ∧ ret.summary = s
          ∧ ret.error? = none :=
  summary_deltas_concat_complete "key" "w4" ["q"] [FetchOutcome.ok ⟨"q", 1, [raDemo]⟩]
    [0] ⟨["x", "y"], none⟩ (by decide) (by decide) rfl

theorem batch_emission_submission_order_witness :
    (execute (some "key") "w5" ["a", "b"]
        [FetchOutcome.ok ⟨"a", 1, [raDemo]⟩, FetchOutcome.ok ⟨"b", 1, [rbDemo]⟩]
        [5, 1] ⟨["s"], none⟩).1.filter isSourcesEvent
      = batchEventsOf "w5" (searchResponsesOf ["a", "b"]
          [FetchOutcome.ok ⟨"a", 1, [raDemo]⟩, FetchOutcome.ok ⟨"b", 1, [rbDemo]⟩]) :=
  (batch_emission_submission_order "key" "w5" ["a", "b"]
    [FetchOutcome.ok ⟨"a", 1, [raDemo]⟩, FetchOutcome.ok ⟨"b", 1, [rbDemo]⟩]
    ⟨["s"], none⟩ [5, 1] [1, 2] (by decide)).1

theorem no_results_terminal_witness :
    execute (some "key") "w6" ["a", "b"]
        [FetchOutcome.httpError "500", FetchOutcome.ok ⟨"b", 0, []⟩] [0, 0]
        ⟨["s"], none⟩
      = ([searchingEvent "w6", statusEvent "w6" "No results found." (some []) none none],
         ExecOutcome.returned ⟨"w6", "No relevant search results found.", [], none⟩) :=
  no_results_terminal "key" "w6" ["a", "b"]
    [FetchOutcome.httpError "500", FetchOutcome.ok ⟨"b", 0, []⟩] [0, 0]
    ⟨["s"], none⟩ (by decide) (by decide)

theorem generator_failure_recovered_witness :
    (∃ pre, (execute (some "key") "w7" ["q"] [FetchOutcome.ok ⟨"q", 1, [rbDemo]⟩] [0]
        ⟨["frag"], some "boom"⟩).1 = pre ++ [errorStatusEvent "w7" "boom"])
    ∧ (execute (some "key") "w7" ["q"] [FetchOutcome.ok ⟨"q", 1, [rbDemo]⟩] [0]
        ⟨["frag"], some "boom"⟩).2
      = ExecOutcome.returned ⟨"w7", "An error occurred during the search.", [], some "boom"⟩ :=
  generator_failure_recovered "key" "w7" ["q"] [FetchOutcome.ok ⟨"q", 1, [rbDemo]⟩] [0]
    ⟨["frag"], some "boom"⟩ "boom" (by decide) (by decide) rfl

theorem per_query_failure_absorbed_witness :
    searchQuery "q" (FetchOutcome.httpError "502") = ⟨"q", 0, []⟩
    ∧ ∀ e ∈ (execute (some "key") "w8" ["a", "b"]
        [FetchOutcome.fetchError "net", FetchOutcome.ok ⟨"b", 1, [raDemo]⟩] [0, 0]
        ⟨["s"], none⟩).1,
        e.content.status? ≠ some "Error occurred during search." :=
  ⟨per_query_failure_absorbed.1 "q" (FetchOutcome.httpError "502") rfl,
   (per_query_failure_absorbed.2 "key" "w8" ["a", "b"]
      [FetchOutcome.fetchError "net", FetchOutcome.ok ⟨"b", 1, [raDemo]⟩] [0, 0]
      ⟨["s"], none⟩ "net" (by decide) (by decide) (by decide) rfl).2⟩

theorem missing_credential_raises_before_events_witness :
    ∃ ret, (execute (some "key") "w9" ["q"] [FetchOutcome.ok ⟨"q", 1, [rbDemo]⟩] [0]
        ⟨["s"], none⟩).2 = ExecOutcome.returned ret :=
  missing_credential_raises_before_events.2 "key" "w9" ["q"]
    [FetchOutcome.ok ⟨"q", 1, [rbDemo]⟩] [0] ⟨["s"], none⟩ (by decide)
